import Mathlib

/-!
Shallow embedding of the espflashtool serial-bootloader core
(src/src/command.rs, src/src/flasher.rs, src/src/protocol.rs,
src/src/event.rs) together with theorems checking the natural-language
specification against it.

Conventions used throughout:

* bytes and 32-bit machine words are `Nat`; where u32 wrapping matters it
  is written explicitly with `w32` (reduction modulo 2^32);
* fallible operations (Rust `Result`, panics) return `Option`;
* the serial line is abstracted by explicit streams of read outcomes;
* the repository carries two revisions of the engine: `Flasher`
  (src/src/flasher.rs, driven by src/src/main.rs) and `Protocol`
  (src/src/protocol.rs).  Where their behaviour differs both are embedded.
-/

namespace Espflashtool

/-- Chip enumeration from src/src/chip.rs. -/
inductive Chip
  | esp8266
  | esp32
  | esp32s2
  | esp32s3
  | esp32c3
deriving DecidableEq, Repr

/-- Command enumeration of src/src/command.rs (the revision used by
src/src/protocol.rs), with each variant's payload fields. -/
inductive Command
  | flashBegin (total_size num_packets packet_size flash_offset : Nat)
  | flashData (data_size sequence_num : Nat)
  | flashEnd (reboot : Nat)
  | memBegin (total_size num_packets packet_size mem_offset : Nat)
  | memEnd (execute entry_point : Nat)
  | memData (data_size sequence_num : Nat)
  | sync
  | writeReg (address value mask delay : Nat)
  | readReg (address : Nat)
  | spiSetParams (id total_size block_size sector_size page_size status_mask : Nat)
  | spiAttach (pins rom_only : Nat)
  | changeBaudRate (new_rate old_rate : Nat)
  | flashDeflBegin (total_size num_packets packet_size flash_offset : Nat)
  | flashDeflData (data_size sequence_num : Nat)
  | flashDeflEnd (reboot : Nat)
  | spiFlashMD5 (address size : Nat)
  | eraseFlash
  | eraseRegion (offset size : Nat)
  | readFlash (offset read_length packet_size max_pending_packets : Nat)
  | runUserCode
deriving DecidableEq, Repr

/-- Opcode of a command, from Command::code in src/src/command.rs. -/
def Command.code : Command → Nat
  | .flashBegin .. => 0x02
  | .flashData .. => 0x03
  | .flashEnd .. => 0x04
  | .memBegin .. => 0x05
  | .memEnd .. => 0x06
  | .memData .. => 0x07
  | .sync => 0x08
  | .writeReg .. => 0x09
  | .readReg .. => 0x0A
  | .spiSetParams .. => 0x0B
  | .spiAttach .. => 0x0D
  | .changeBaudRate .. => 0x0F
  | .flashDeflBegin .. => 0x10
  | .flashDeflData .. => 0x11
  | .flashDeflEnd .. => 0x12
  | .spiFlashMD5 .. => 0x13
  | .eraseFlash => 0xD0
  | .eraseRegion .. => 0xD1
  | .readFlash .. => 0xD2
  | .runUserCode => 0xD3

/-- Reduction modulo 2^32: Rust u32 arithmetic in release mode wraps. -/
def w32 (n : Nat) : Nat := n % 4294967296

/-- Translation of Command::mem_begin (src/src/command.rs:199-207).
The u32 expression `(total_size + packet_size - 1) / packet_size` wraps on
under/overflow and panics on a zero divisor; the panic is modelled as
`none`.  When `total_size = 0` the divisor `min total_size 0x4000` is 0. -/
def Command.mem_begin (mem_offset total_size : Nat) : Option Command :=
  let packet_size := min total_size 0x4000
  if packet_size = 0 then none
  else
    some (Command.memBegin total_size
      (w32 (w32 (total_size + packet_size) + 4294967295) / packet_size)
      packet_size mem_offset)

/-- Translation of Command::flash_begin (src/src/command.rs:209-217), the
same computation as Command::mem_begin with a flash offset. -/
def Command.flash_begin (flash_offset total_size : Nat) : Option Command :=
  let packet_size := min total_size 0x4000
  if packet_size = 0 then none
  else
    some (Command.flashBegin total_size
      (w32 (w32 (total_size + packet_size) + 4294967295) / packet_size)
      packet_size flash_offset)

/-- Little-endian byte serialization of a u32 value. -/
def le32 (n : Nat) : List Nat :=
  [n % 256, n / 256 % 256, n / 65536 % 256, n / 16777216 % 256]

/-- Body bytes of a command as serialized by the binrw attributes on
Command (src/src/command.rs:23-128): fields are little-endian u32 in
declaration order, `pad_after = 8` appends eight zero bytes, Sync is the
fixed 36-byte magic, and SpiAttach writes its rom_only word only when the
peer is the ROM loader. -/
def commandBody (rom_loader : Bool) : Command → List Nat
  | .flashBegin a b c d => le32 a ++ le32 b ++ le32 c ++ le32 d
  | .flashData a b => le32 a ++ le32 b ++ List.replicate 8 0
  | .flashEnd r => le32 r
  | .memBegin a b c d => le32 a ++ le32 b ++ le32 c ++ le32 d
  | .memEnd a b => le32 a ++ le32 b
  | .memData a b => le32 a ++ le32 b ++ List.replicate 8 0
  | .sync => [0x07, 0x07, 0x12, 0x20] ++ List.replicate 32 0x55
  | .writeReg a b c d => le32 a ++ le32 b ++ le32 c ++ le32 d
  | .readReg a => le32 a
  | .spiSetParams a b c d e f => le32 a ++ le32 b ++ le32 c ++ le32 d ++ le32 e ++ le32 f
  | .spiAttach pins rom_only => le32 pins ++ (if rom_loader then le32 rom_only else [])
  | .changeBaudRate a b => le32 a ++ le32 b
  | .flashDeflBegin a b c d => le32 a ++ le32 b ++ le32 c ++ le32 d
  | .flashDeflData a b => le32 a ++ le32 b ++ List.replicate 8 0
  | .flashDeflEnd r => le32 r
  | .spiFlashMD5 a b => le32 a ++ le32 b ++ List.replicate 8 0
  | .eraseFlash => []
  | .eraseRegion a b => le32 a ++ le32 b
  | .readFlash a b c d => le32 a ++ le32 b ++ le32 c ++ le32 d
  | .runUserCode => []

/-- XOR checksum over a data payload seeded with 0xEF, as computed in
Protocol::send_command_with_data (src/src/protocol.rs:151-154) and in the
FlashData, MemData and FlashDeflData arms of
Flasher::send_command_with_data (src/src/flasher.rs:221-224). -/
def xorChecksum (data : List Nat) : Nat := data.foldl Nat.xor 0xEF

/-- Translation of the packet built by Protocol::send_command_with_data
(src/src/protocol.rs:148-177): an 8-byte header whose byte 4 is primed
with the checksum, the binrw body written at offset 8, the raw data, then
the length field at bytes 2-3 and the checksum at byte 4 patched in.  The
checksum is computed over the data for every command. -/
def protocolPacket (rom_loader : Bool) (cmd : Command) (data : List Nat) : List Nat :=
  let checksum := xorChecksum data
  let base := [0, cmd.code, 0, 0, checksum, 0, 0, 0] ++ commandBody rom_loader cmd ++ data
  let len := base.length - 8
  ((base.set 2 (len % 256)).set 3 (len / 256 % 256)).set 4 checksum

/-- Command enumeration of the Flasher revision, with the variants and
fields as matched by Flasher::send_command_with_data
(src/src/flasher.rs:193-291); this revision's enum itself is not among the
source files, but every variant shape is fixed by those match arms. -/
inductive FCommand
  | flashBegin (total_size num_packets packet_size flash_offset : Nat)
  | flashData (sequence_num : Nat)
  | flashEnd (reboot : Bool)
  | memBegin (total_size num_packets packet_size flash_offset : Nat)
  | memEnd (execute : Bool) (entry_point : Nat)
  | memData (sequence_num : Nat)
  | sync
  | writeReg (address value mask delay : Nat)
  | readReg (address : Nat)
  | spiSetParams (size : Nat)
  | spiAttach (pins : Nat)
  | changeBaudRate (new_rate : Nat)
  | flashDeflBegin (total_size num_packets packet_size flash_offset : Nat)
  | flashDeflData (sequence_num : Nat)
  | flashDeflEnd (reboot : Bool)
  | spiFlashMD5 (address size : Nat)
  | eraseFlash
  | eraseRegion (offset size : Nat)
  | readFlash (offset read_length packet_size max_pending_packets : Nat)
  | runUserCode
deriving DecidableEq, Repr

/-- Opcode of a Flasher-revision command; the mapping is the one of
Command::code and Command::name_from_code (src/src/command.rs:131-197). -/
def FCommand.code : FCommand → Nat
  | .flashBegin .. => 0x02
  | .flashData .. => 0x03
  | .flashEnd .. => 0x04
  | .memBegin .. => 0x05
  | .memEnd .. => 0x06
  | .memData .. => 0x07
  | .sync => 0x08
  | .writeReg .. => 0x09
  | .readReg .. => 0x0A
  | .spiSetParams .. => 0x0B
  | .spiAttach .. => 0x0D
  | .changeBaudRate .. => 0x0F
  | .flashDeflBegin .. => 0x10
  | .flashDeflData .. => 0x11
  | .flashDeflEnd .. => 0x12
  | .spiFlashMD5 .. => 0x13
  | .eraseFlash => 0xD0
  | .eraseRegion .. => 0xD1
  | .readFlash .. => 0xD2
  | .runUserCode => 0xD3

/-- Whether the command transports a data payload (the FlashData, MemData
and FlashDeflData arms of src/src/flasher.rs:217-226, the only arms that
compute a nonzero checksum and append the data). -/
def FCommand.isData : FCommand → Bool
  | .flashData _ => true
  | .memData _ => true
  | .flashDeflData _ => true
  | _ => false

/-- Body bytes written by the match in Flasher::send_command_with_data
(src/src/flasher.rs:193-291).  `baud_rate` stands for
`self.serial.baud_rate()`, read in the ChangeBaudRate arm when the peer is
the stub. -/
def fcommandBody (rom_loader : Bool) (baud_rate : Nat) (data : List Nat) :
    FCommand → List Nat
  | .flashBegin a b c d => le32 a ++ le32 b ++ le32 c ++ le32 d
  | .memBegin a b c d => le32 a ++ le32 b ++ le32 c ++ le32 d
  | .flashDeflBegin a b c d => le32 a ++ le32 b ++ le32 c ++ le32 d
  | .flashData s => le32 data.length ++ le32 s ++ le32 0 ++ le32 0 ++ data
  | .memData s => le32 data.length ++ le32 s ++ le32 0 ++ le32 0 ++ data
  | .flashDeflData s => le32 data.length ++ le32 s ++ le32 0 ++ le32 0 ++ data
  | .flashEnd r => le32 (if r then 0 else 1)
  | .flashDeflEnd r => le32 (if r then 0 else 1)
  | .memEnd e ep => le32 (if e then 0 else 1) ++ le32 ep
  | .sync => [0x07, 0x07, 0x12, 0x20] ++ List.replicate 32 0x55
  | .writeReg a v m d => le32 a ++ le32 v ++ le32 m ++ le32 d
  | .readReg a => le32 a
  | .spiSetParams s =>
      le32 0 ++ le32 s ++ le32 0x10000 ++ le32 0x1000 ++ le32 0x100 ++ le32 0xFFFF
  | .spiAttach p => if rom_loader then le32 p ++ le32 0 else le32 p
  | .changeBaudRate n => le32 n ++ le32 (if rom_loader then 0 else baud_rate)
  | .spiFlashMD5 a s => le32 a ++ le32 s ++ le32 0 ++ le32 0
  | .eraseFlash => []
  | .eraseRegion o s => le32 o ++ le32 s
  | .readFlash a b c d => le32 a ++ le32 b ++ le32 c ++ le32 d
  | .runUserCode => []

/-- Translation of the packet built by Flasher::send_command_with_data
(src/src/flasher.rs:171-296): the checksum starts at 0, is set to the
0xEF-seeded XOR only in the three data-command arms, and is patched into
header byte 4 after the length field. -/
def flasherPacket (rom_loader : Bool) (baud_rate : Nat) (cmd : FCommand)
    (data : List Nat) : List Nat :=
  let checksum := if cmd.isData then xorChecksum data else 0
  let base := [0, cmd.code, 0, 0, 0, 0, 0, 0] ++ fcommandBody rom_loader baud_rate data cmd
  let len := base.length - 8
  ((base.set 2 (len % 256)).set 3 (len / 256 % 256)).set 4 checksum

/-- Modelled from the spec: Command::response_data_len_from_code is called
from Flasher::read_response (src/src/flasher.rs:313-314) but its definition
is not among the source files.  Spec section 4.4: every opcode except
SpiFlashMD5 (0x13) has an expected response data length of zero;
SpiFlashMD5 has 32 bytes from the ROM loader and 16 from the stub; for a
code outside the opcode table the length is unknown (usize::MAX at the
call site, `none` here). -/
def response_data_len_from_code (code : Nat) (rom_loader : Bool) : Option Nat :=
  if code = 0x13 then some (if rom_loader then 32 else 16)
  else if [0x02, 0x03, 0x04, 0x05, 0x06, 0x07, 0x08, 0x09, 0x0A, 0x0B, 0x0D,
      0x0F, 0x10, 0x11, 0x12, 0xD0, 0xD1, 0xD2, 0xD3].contains code then some 0
  else none

/-- Body-length field of a raw response frame: the little-endian u16 at
bytes 2..4 (from_le16 at src/src/flasher.rs:20-23, applied at line 322). -/
def respSize (resp : List Nat) : Nat := resp.getD 2 0 + 256 * resp.getD 3 0

/-- Size-consistency part of the validity check in Flasher::read_response
(src/src/flasher.rs:321-330), true when the frame is invalid.  `none`
stands for usize::MAX (unknown expected response data length) and
`status_size` is the cached session value (0 while unknown). -/
def respSizeInvalid (expected : Option Nat) (status_size : Nat)
    (size len : Nat) : Bool :=
  size + 8 != len ||
    (match expected, status_size with
     | none, 0 => false
     | none, s => decide (size < s)
     | some e, 0 => size != e + 2 && size != e + 4
     | some e, s => size != e + s)

/-- Full validity check on a raw response frame performed by
Flasher::read_response (src/src/flasher.rs:319-334); false exactly when
the frame is traced as InvalidResponse and skipped. -/
def respCheckValid (expected : Option Nat) (status_size : Nat)
    (resp : List Nat) : Bool :=
  !(decide (resp.length < 10) || (resp.getD 0 0 != 1) ||
    respSizeInvalid expected status_size (respSize resp) resp.length)

/-- Translation of u8::is_ascii_hexdigit as used at
src/src/flasher.rs:741. -/
def isAsciiHexdigit (b : Nat) : Bool :=
  (48 ≤ b && b ≤ 57) || (65 ≤ b && b ≤ 70) || (97 ≤ b && b ≤ 102)

/-- Translation of the hex-digit closure f in Flasher::spi_flash_md5
(src/src/flasher.rs:744-749); the final arm is unreachable under the
is_ascii_hexdigit guard and is given the value 0. -/
def hexVal (x : Nat) : Nat :=
  if 48 ≤ x ∧ x ≤ 57 then x - 48
  else if 97 ≤ x ∧ x ≤ 102 then x - 97 + 10
  else if 65 ≤ x ∧ x ≤ 70 then x - 65 + 10
  else 0

/-- Digest extraction of Flasher::spi_flash_md5 (src/src/flasher.rs:737-762,
identical in Protocol::spi_flash_md5, src/src/protocol.rs:465-490), as a
function of the peer mode and the response data; `none` is the
CommandError::InvalidResponse early return. -/
def spiFlashMd5Decode (rom_loader : Bool) (data : List Nat) : Option (List Nat) :=
  if rom_loader then
    if data.length = 32 ∧ data.all isAsciiHexdigit then
      some (List.ofFn (n := 16) fun idx =>
        16 * hexVal (data.getD (2 * idx.val) 0) + hexVal (data.getD (2 * idx.val + 1) 0))
    else none
  else
    if data.length = 16 then some data else none

/-- Lower-case hex digit for a value below 16 (ASCII encoding of one
nibble), used to express the round-trip property of the ROM-mode MD5
response. -/
def hexDigitLower (n : Nat) : Nat := if n < 10 then 48 + n else 87 + n

/-- ASCII hex encoding of a byte string, two lower-case digits per byte,
high nibble first: the form in which the ROM loader returns an MD5
digest. -/
def hexEncodeLower : List Nat → List Nat
  | [] => []
  | b :: rest => hexDigitLower (b / 16) :: hexDigitLower (b % 16) :: hexEncodeLower rest

/-- Outcome of one Protocol::read_line / Flasher::read_line call as seen by
connect: a timeout error, a completed line, or a non-timeout error. -/
inductive LineResult
  | timeout
  | line (bytes : List Nat)
  | fatal
deriving DecidableEq, Repr

/-- Byte string of the boot banner `waiting for download\r\n` compared
against at src/src/flasher.rs:433 and src/src/protocol.rs:247. -/
def bannerBytes : List Nat :=
  [119, 97, 105, 116, 105, 110, 103, 32, 102, 111, 114, 32, 100, 111, 119,
   110, 108, 111, 97, 100, 13, 10]

/-- Effect of one line read inside the banner loop of connect
(src/src/flasher.rs:432-437): `some true` leaves the outer loop with
`waiting = true` (the read timed out or matched the banner), `some false`
propagates a non-timeout error, `none` keeps listening. -/
def lineStep : LineResult → Option Bool
  | .timeout => some true
  | .fatal => some false
  | .line l => if l = bannerBytes then some true else none

/-- Inner loop of the banner stage: up to `fuel` line reads starting at
stream position `i`. -/
def listenAux (reads : Nat → LineResult) : Nat → Nat → Option Bool
  | 0, _ => none
  | fuel + 1, i =>
    match lineStep (reads i) with
    | some b => some b
    | none => listenAux reads fuel (i + 1)

/-- One round of the banner stage: reset then up to ten line reads
(src/src/flasher.rs:429-437). -/
def listenRound (reads : Nat → LineResult) : Option Bool := listenAux reads 10 0

/-- Result of the banner stage of connect: left the loop with
`waiting = true`, propagated a non-timeout error, or fell through to the
timed-out-waiting error (src/src/flasher.rs:440-446). -/
inductive BannerOutcome
  | proceeded
  | errored
  | timedOut
deriving DecidableEq, Repr

/-- Outer loop of the banner stage over the rounds. -/
def connectBannerAux (rounds : Nat → Nat → LineResult) : Nat → Nat → BannerOutcome
  | 0, _ => .timedOut
  | fuel + 1, r =>
    match listenRound (rounds r) with
    | some true => .proceeded
    | some false => .errored
    | none => connectBannerAux rounds fuel (r + 1)

/-- Banner stage of Flasher::connect / Protocol::connect
(src/src/flasher.rs:426-446, src/src/protocol.rs:240-260): ten rounds of
reset-then-listen over the given per-round streams of line-read
outcomes. -/
def connectBanner (rounds : Nat → Nat → LineResult) : BannerOutcome :=
  connectBannerAux rounds 10 0

/-- Outcome of one Flasher::read_response call inside sync: a matched
response, a timeout error, or a non-timeout error. -/
inductive RespOutcome
  | ok
  | timeout
  | fatal
deriving DecidableEq, Repr

/-- Result of one Flasher::sync call as observed by connect. -/
inductive SyncResult
  | success
  | timedOut
  | failed
deriving DecidableEq, Repr

/-- Drain loop of Flasher::sync (src/src/flasher.rs:689-695): up to `fuel`
further read_response calls starting at stream position `i`; a timeout
ends the drain successfully, any other error fails, and exhausting the
loop falls through to Ok. -/
def syncDrainAux (reads : Nat → RespOutcome) : Nat → Nat → SyncResult
  | 0, _ => .success
  | fuel + 1, i =>
    match reads i with
    | .ok => syncDrainAux reads fuel (i + 1)
    | .timeout => .success
    | .fatal => .failed

/-- Translation of Flasher::sync (src/src/flasher.rs:682-698, identical in
Protocol::sync, src/src/protocol.rs:399-414): stream position 0 is the
response to the sent Sync command read inside send_command, positions
1, 2, … are the drain reads, of which at most 100 happen. -/
def syncRun (reads : Nat → RespOutcome) : SyncResult :=
  match reads 0 with
  | .ok => syncDrainAux reads 100 1
  | .timeout => .timedOut
  | .fatal => .failed

/-- Sync stage of Flasher::connect (src/src/flasher.rs:447-456): up to ten
sync attempts, retrying on timeout, propagating any other error, breaking
on success, and falling through to Ok when all attempts time out.
`attempts k` is the read stream of the k-th attempt; the first component
of the result counts the Sync commands actually sent. -/
def connectSyncAux (attempts : Nat → Nat → RespOutcome) : Nat → Nat → Nat × SyncResult
  | 0, k => (k, .success)
  | fuel + 1, k =>
    match syncRun (attempts k) with
    | .timedOut => connectSyncAux attempts fuel (k + 1)
    | .failed => (k + 1, .failed)
    | .success => (k + 1, .success)

/-- Sync stage of connect with its retry bound of ten. -/
def connectSync (attempts : Nat → Nat → RespOutcome) : Nat × SyncResult :=
  connectSyncAux attempts 10 0

/-- Observer wiring installed by Protocol::new (src/src/protocol.rs:60-74).
EventProvider observer lists live behind shared Rc cells (src/src/event.rs:
167-213), modelled as a heap of cells indexed by position; observers are
identified by numbers.  Protocol::new creates provider cell 0, moves a
clone of it (sharing cell 0) into the TimeoutSerialPort, and then builds
the Protocol value with a second fresh provider, cell 1. -/
structure ProtocolObservers where
  cells : List (List Nat)
  tspProvider : Nat
  protocolProvider : Nat
deriving DecidableEq, Repr

/-- Translation of Protocol::new (src/src/protocol.rs:60-74). -/
def protocolNew : ProtocolObservers :=
  { cells := [[], []], tspProvider := 0, protocolProvider := 1 }

/-- Translation of Protocol::add_observer (src/src/protocol.rs:76-81):
EventProvider::add_observer pushes onto the Protocol's own provider
cell. -/
def addObserver (s : ProtocolObservers) (o : Nat) : ProtocolObservers :=
  { s with
    cells := s.cells.set s.protocolProvider ((s.cells.getD s.protocolProvider []) ++ [o]) }

/-- Observers notified of the SerialRead event emitted inside
TimeoutSerialPort::read (src/src/protocol.rs:46-49):
EventProvider::send_event (src/src/event.rs:198-204) notifies every
observer held in the provider's shared cell, here the cell cloned into the
TimeoutSerialPort. -/
def serialReadNotified (s : ProtocolObservers) : List Nat :=
  s.cells.getD s.tspProvider []

/-- Observers registered on the Protocol itself, the ones add_observer
appends to. -/
def registeredObservers (s : ProtocolObservers) : List Nat :=
  s.cells.getD s.protocolProvider []

/-- Trace events relevant to the reset claims. -/
inductive TraceEvent
  | reset
deriving DecidableEq, Repr

/-- Session state of the Protocol revision touched by Protocol::reset. -/
structure ProtocolState where
  is_rom_loader : Bool
  rxBuffer : List Nat
  trace : List TraceEvent
deriving DecidableEq, Repr

/-- Translation of Protocol::reset (src/src/protocol.rs:273-295): trace a
Reset event, consume the whole BufReader buffer, and set is_rom_loader to
true (the control-line and sleep sequence acts only on the port). -/
def Protocol.reset (s : ProtocolState) : ProtocolState :=
  { is_rom_loader := true, rxBuffer := [], trace := s.trace ++ [TraceEvent.reset] }

/-- Session state of the Flasher revision touched by Flasher::reset,
Flasher::attach and Flasher::spi_attach. -/
structure FlasherState where
  rom_loader : Bool
  status_size : Nat
  attached : Bool
  chip : Option Chip
  buffer : List Nat
  trace : List TraceEvent
deriving DecidableEq, Repr

/-- Translation of Flasher::reset (src/src/flasher.rs:582-599): trace a
Reset event and clear the receive buffer; no other session field is
written. -/
def Flasher.reset (s : FlasherState) : FlasherState :=
  { s with buffer := [], trace := s.trace ++ [TraceEvent.reset] }

/-- Translation of Flasher::spi_attach (src/src/flasher.rs:720-724) with
the serial exchange abstracted by `cmdOk` (whether the SpiAttach command
round-trip succeeds): on success the attached flag is set. -/
def Flasher.spi_attach (s : FlasherState) (cmdOk : Bool) : Option FlasherState :=
  if cmdOk then some { s with attached := true } else none

/-- Translation of Flasher::flash_begin (src/src/flasher.rs:601-615) with
the serial exchange abstracted by `cmdOk`: sends FlashBegin and leaves
every session field unchanged. -/
def Flasher.flash_begin (s : FlasherState) (cmdOk : Bool) : Option FlasherState :=
  if cmdOk then some s else none

/-- Translation of Flasher::attach (src/src/flasher.rs:459-465): a chip
must have been set; ESP8266 attaches with FlashBegin(0,0,0,0), every other
chip with SpiAttach. -/
def Flasher.attach (s : FlasherState) (cmdOk : Bool) : Option FlasherState :=
  match s.chip with
  | none => none
  | some Chip.esp8266 => Flasher.flash_begin s cmdOk
  | some _ => Flasher.spi_attach s cmdOk

/-- A Flasher session in stub mode with a nonempty receive buffer, as left
by a successful stub activation. -/
def stubModeState : FlasherState :=
  { rom_loader := false, status_size := 2, attached := true,
    chip := some Chip.esp32, buffer := [1, 2, 3], trace := [] }

/-- A Flasher session that has detected an ESP8266 and not yet attached. -/
def esp8266State : FlasherState :=
  { rom_loader := true, status_size := 2, attached := false,
    chip := some Chip.esp8266, buffer := [], trace := [] }

/-- C4: in Protocol::new the provider cloned into the TimeoutSerialPort
and the provider stored in the Protocol are two distinct fresh providers
(src/src/protocol.rs:61 and 72), so an observer registered through
Protocol::add_observer lands in the Protocol's provider while the
SerialRead event of TimeoutSerialPort::read is sent on the other: the
registered observer is never notified of SerialRead. -/
theorem serialRead_observer_disconnected :
    registeredObservers (addObserver protocolNew 7) = [7] ∧
    serialReadNotified (addObserver protocolNew 7) = [] :=
  ⟨rfl, rfl⟩

/-- C5 counterexample: the Protocol revision writes the 0xEF-seeded XOR of
the (empty) payload, i.e. 0xEF, into the checksum field of every command
packet, including the data-free Sync command, where the claim requires
zero. -/
theorem checksum_field_counterexample :
    ((protocolPacket true Command.sync []).drop 4).take 4 = [0xEF, 0, 0, 0] ∧
    (0xEF : Nat) ≠ 0 :=
  ⟨rfl, by decide⟩

/-- C5 amended: in both revisions bytes 4..8 of every encoded command
packet hold a 32-bit field with zero upper three bytes; the Flasher
revision writes the 0xEF-seeded XOR of the payload for the data-bearing
commands and zero for every other command, while the Protocol revision
writes the 0xEF-seeded XOR of the payload for every command (0xEF when
there is no payload). -/
theorem checksum_field_amended (rom : Bool) (baud : Nat) (c : Command)
    (fc : FCommand) (data : List Nat) :
    ((protocolPacket rom c data).drop 4).take 4 = [xorChecksum data, 0, 0, 0] ∧
    ((flasherPacket rom baud fc data).drop 4).take 4 =
      [if fc.isData then xorChecksum data else 0, 0, 0, 0] :=
  ⟨rfl, rfl⟩

/-- C6 counterexample: Flasher::reset does not write the peer-mode flag,
so resetting a session that is in stub mode leaves rom_loader = false,
while the claim requires it to be true after every reset. -/
theorem reset_rom_flag_counterexample :
    (Flasher.reset stubModeState).rom_loader = false ∧ false ≠ true :=
  ⟨rfl, by decide⟩

/-- C6 amended: Protocol::reset always leaves the peer-mode flag at ROM,
empties the receive buffer and emits a Reset event; Flasher::reset empties
the buffer and emits a Reset event but leaves the peer-mode flag exactly
as it was. -/
theorem reset_amended (p : ProtocolState) (f : FlasherState) :
    (Protocol.reset p).is_rom_loader = true ∧
    (Protocol.reset p).rxBuffer = [] ∧
    (Protocol.reset p).trace = p.trace ++ [TraceEvent.reset] ∧
    (Flasher.reset f).buffer = [] ∧
    (Flasher.reset f).trace = f.trace ++ [TraceEvent.reset] ∧
    (Flasher.reset f).rom_loader = f.rom_loader :=
  ⟨rfl, rfl, rfl, rfl, rfl, rfl⟩

/-- C7: on an ESP8266 session the attach succeeds via FlashBegin(0,0,0,0)
yet returns the state unchanged, so the attached flag is still false,
contradicting the claim (and the spec) that every successful attach sets
it; Flasher::flash_begin never writes the flag and Flasher::attach does
not set it either. -/
theorem attach_esp8266_leaves_unattached :
    Flasher.attach esp8266State true = some esp8266State ∧
    esp8266State.attached = false :=
  ⟨rfl, rfl⟩

/-- C9 counterexample: Command::mem_begin takes no peer-mode input and
clamps the packet size to 0x4000 unconditionally, so for a stub-mode
upload of 0x4000 bytes it yields packet_size 0x4000 where the claim
requires min(0x4000, 0x1800) = 0x1800. -/
theorem mem_begin_stub_counterexample :
    Command.mem_begin 0 0x4000 = some (Command.memBegin 0x4000 1 0x4000 0) ∧
    (0x4000 : Nat) ≠ min 0x4000 0x1800 :=
  ⟨rfl, by decide⟩

/-- C9 amended: for every total_size with 0 < total_size ≤ 0xFFFFC000 (so
that the u32 computation cannot wrap), Command::mem_begin builds a
MemBegin whose packet_size is min(total_size, 0x4000) regardless of the
peer mode, and whose num_packets is total_size divided by packet_size
rounded up. -/
theorem mem_begin_amended (mem_offset total_size : Nat) (h0 : 0 < total_size)
    (hb : total_size ≤ 0xFFFFC000) :
    ∃ num,
      Command.mem_begin mem_offset total_size =
        some (Command.memBegin total_size num (min total_size 0x4000) mem_offset) ∧
      total_size ≤ num * min total_size 0x4000 ∧
      (num - 1) * min total_size 0x4000 < total_size := by
  set pk := min total_size 0x4000 with hpk
  have hpk0 : 0 < pk := by omega
  have hw : w32 (w32 (total_size + pk) + 4294967295) = total_size + pk - 1 := by
    unfold w32
    omega
  refine ⟨(total_size + pk - 1) / pk, ?_, ?_, ?_⟩
  · unfold Command.mem_begin
    rw [← hpk, if_neg (by omega), hw]
  · have hdm := Nat.div_add_mod (total_size + pk - 1) pk
    have hm : (total_size + pk - 1) % pk < pk := Nat.mod_lt _ hpk0
    rw [Nat.mul_comm]
    set m := pk * ((total_size + pk - 1) / pk) with hmq
    omega
  · have hdm := Nat.div_add_mod (total_size + pk - 1) pk
    have hm : (total_size + pk - 1) % pk < pk := Nat.mod_lt _ hpk0
    rw [Nat.sub_mul, Nat.one_mul, Nat.mul_comm]
    set m := pk * ((total_size + pk - 1) / pk) with hmq
    omega

/-- Witness for C9 amended at offset 0 and total_size 5. -/
theorem mem_begin_amended_witness :
    ∃ num,
      Command.mem_begin 0 5 = some (Command.memBegin 5 num (min 5 0x4000) 0) ∧
      5 ≤ num * min 5 0x4000 ∧ (num - 1) * min 5 0x4000 < 5 :=
  mem_begin_amended 0 5 (by decide) (by decide)

/-- C10: with total_size = 0 the packet size min(total_size, 0x4000) is
zero and Command::mem_begin / Command::flash_begin hit the division by
zero (the panic, modelled as none); with any total_size > 0 the divisor is
positive and both constructors are total. -/
theorem begin_zero_divides_by_zero :
    (∀ off, Command.mem_begin off 0 = none ∧ Command.flash_begin off 0 = none) ∧
    (∀ off total, 0 < total →
      (Command.mem_begin off total).isSome = true ∧
      (Command.flash_begin off total).isSome = true) := by
  refine ⟨fun off => ⟨rfl, rfl⟩, fun off total h => ?_⟩
  have hp : ¬(min total 0x4000 = 0) := by omega
  constructor <;> simp [Command.mem_begin, Command.flash_begin, hp]

/-- Witness for C10 at offset 3 and total_size 7. -/
theorem begin_zero_divides_by_zero_witness :
    (Command.mem_begin 3 7).isSome = true ∧
    (Command.flash_begin 3 7).isSome = true :=
  begin_zero_divides_by_zero.2 3 7 (by decide)

/-- Unfolding of the frame validity check into propositional form. -/
lemma respCheckValid_eq_true_iff (expected : Option Nat) (s : Nat) (resp : List Nat) :
    respCheckValid expected s resp = true ↔
      (10 ≤ resp.length ∧ resp.getD 0 0 = 1 ∧
        respSizeInvalid expected s (respSize resp) resp.length = false) := by
  unfold respCheckValid
  simp only [Bool.not_eq_true', Bool.or_eq_false_iff, decide_eq_false_iff_not,
    Nat.not_lt, bne_eq_false_iff_eq]
  tauto

/-- C1: in Flasher::read_response, for a command whose expected response
data length is known and with the cached status size in its invariant
range {0, 2, 4}, a frame passes the validity check only if its body length
L satisfies L = expected + 2 or L = expected + 4, and every frame whose L
differs from both is rejected as an invalid response. -/
theorem response_trailer_width (code : Nat) (rom : Bool) (e s : Nat)
    (resp : List Nat)
    (he : response_data_len_from_code code rom = some e)
    (hs : s = 0 ∨ s = 2 ∨ s = 4) :
    (respCheckValid (response_data_len_from_code code rom) s resp = true →
      respSize resp = e + 2 ∨ respSize resp = e + 4) ∧
    (respSize resp ≠ e + 2 ∧ respSize resp ≠ e + 4 →
      respCheckValid (response_data_len_from_code code rom) s resp = false) := by
  rw [he]
  constructor
  · intro h
    rw [respCheckValid_eq_true_iff] at h
    obtain ⟨-, -, hsz⟩ := h
    unfold respSizeInvalid at hsz
    simp only [Bool.or_eq_false_iff, bne_eq_false_iff_eq] at hsz
    obtain ⟨-, hsz⟩ := hsz
    rcases hs with rfl | rfl | rfl
    · simp only [Bool.and_eq_false_iff, bne_eq_false_iff_eq] at hsz
      tauto
    · simp only [bne_eq_false_iff_eq] at hsz
      exact Or.inl hsz
    · simp only [bne_eq_false_iff_eq] at hsz
      exact Or.inr hsz
  · rintro ⟨h2, h4⟩
    rw [← Bool.not_eq_true, respCheckValid_eq_true_iff]
    rintro ⟨-, -, hsz⟩
    unfold respSizeInvalid at hsz
    simp only [Bool.or_eq_false_iff, bne_eq_false_iff_eq] at hsz
    obtain ⟨-, hsz⟩ := hsz
    rcases hs with rfl | rfl | rfl
    · simp only [Bool.and_eq_false_iff, bne_eq_false_iff_eq] at hsz
      tauto
    · simp only [bne_eq_false_iff_eq] at hsz
      exact h2 hsz
    · simp only [bne_eq_false_iff_eq] at hsz
      exact h4 hsz

/-- Witness for C1: a ten-byte Sync response frame with body length 2 and
unknown cached status size passes the check, and its trailer width is
2. -/
theorem response_trailer_width_witness :
    respSize [1, 8, 2, 0, 0, 0, 0, 0, 0, 0] = 0 + 2 ∨
    respSize [1, 8, 2, 0, 0, 0, 0, 0, 0, 0] = 0 + 4 :=
  (response_trailer_width 8 true 0 0 [1, 8, 2, 0, 0, 0, 0, 0, 0, 0]
    (by decide) (Or.inl rfl)).1 (by decide)

/-- A line read leaves the banner loop successfully exactly when it timed
out or delivered the banner line. -/
lemma lineStep_eq_some_true (x : LineResult) :
    lineStep x = some true ↔ x = LineResult.timeout ∨ x = LineResult.line bannerBytes := by
  cases x with
  | timeout => simp [lineStep]
  | fatal => simp [lineStep]
  | line l =>
    simp only [lineStep]
    constructor
    · intro h
      split at h
      · right
        simp_all
      · simp_all
    · rintro (h | h) <;> simp_all

/-- A line read aborts the banner loop exactly when it failed with a
non-timeout error. -/
lemma lineStep_eq_some_false (x : LineResult) :
    lineStep x = some false ↔ x = LineResult.fatal := by
  cases x with
  | timeout => simp [lineStep]
  | fatal => simp [lineStep]
  | line l =>
    simp only [lineStep]
    constructor
    · intro h
      split at h <;> simp_all
    · intro h
      simp_all

/-- Bounded-search characterisation of the inner listen loop, in the
absence of hard read errors. -/
lemma listenAux_spec (reads : Nat → LineResult) :
    ∀ fuel start,
      (∀ i, start ≤ i → i < start + fuel → lineStep (reads i) ≠ some false) →
      (listenAux reads fuel start = some true ↔
        ∃ i, start ≤ i ∧ i < start + fuel ∧ lineStep (reads i) = some true) := by
  intro fuel
  induction fuel with
  | zero =>
    intro start h
    simp only [listenAux]
    constructor
    · intro h'
      exact absurd h' (by simp)
    · rintro ⟨i, h1, h2, -⟩
      omega
  | succ n ih =>
    intro start h
    simp only [listenAux]
    rcases hstep : lineStep (reads start) with - | b
    · rw [ih (start + 1) (fun i h1 h2 => h i (by omega) (by omega))]
      constructor
      · rintro ⟨i, h1, h2, h3⟩
        exact ⟨i, by omega, by omega, h3⟩
      · rintro ⟨i, h1, h2, h3⟩
        refine ⟨i, ?_, by omega, h3⟩
        rcases Nat.eq_or_lt_of_le h1 with rfl | h1'
        · rw [hstep] at h3
          exact absurd h3 (by simp)
        · omega
    · cases b with
      | true =>
        simp only [true_iff]
        exact ⟨start, le_refl _, by omega, hstep⟩
      | false =>
        exact absurd hstep (h start (le_refl _) (by omega))

/-- In the absence of hard read errors the inner listen loop never
aborts. -/
lemma listenAux_ne_some_false (reads : Nat → LineResult) :
    ∀ fuel start,
      (∀ i, start ≤ i → i < start + fuel → lineStep (reads i) ≠ some false) →
      listenAux reads fuel start ≠ some false := by
  intro fuel
  induction fuel with
  | zero => simp [listenAux]
  | succ n ih =>
    intro start h
    simp only [listenAux]
    rcases hstep : lineStep (reads start) with - | b
    · exact ih (start + 1) (fun i h1 h2 => h i (by omega) (by omega))
    · cases b with
      | true => simp
      | false => exact absurd hstep (h start (le_refl _) (by omega))

/-- In the absence of hard read errors the inner listen loop returns
`none` exactly when no read in range succeeded. -/
lemma listenAux_none_spec (reads : Nat → LineResult) (fuel start : Nat)
    (h : ∀ i, start ≤ i → i < start + fuel → lineStep (reads i) ≠ some false) :
    (listenAux reads fuel start = none ↔
      ¬∃ i, start ≤ i ∧ i < start + fuel ∧ lineStep (reads i) = some true) := by
  rw [← listenAux_spec reads fuel start h]
  rcases hl : listenAux reads fuel start with - | b
  · simp
  · cases b with
    | true => simp
    | false => exact absurd hl (listenAux_ne_some_false reads fuel start h)

/-- Bounded-search characterisation of the outer round loop of the banner
stage, in the absence of hard read errors: the stage proceeds exactly when
some round contains a successful read, and otherwise times out. -/
lemma connectBannerAux_spec (rounds : Nat → Nat → LineResult) :
    ∀ fuel start,
      (∀ r i, start ≤ r → r < start + fuel → i < 10 → rounds r i ≠ LineResult.fatal) →
      ((connectBannerAux rounds fuel start = BannerOutcome.proceeded ↔
         ∃ r, start ≤ r ∧ r < start + fuel ∧
           ∃ i, i < 10 ∧ lineStep (rounds r i) = some true) ∧
       (connectBannerAux rounds fuel start = BannerOutcome.timedOut ↔
         ¬∃ r, start ≤ r ∧ r < start + fuel ∧
           ∃ i, i < 10 ∧ lineStep (rounds r i) = some true)) := by
  intro fuel
  induction fuel with
  | zero =>
    intro start h
    constructor
    · simp only [connectBannerAux]
      constructor
      · intro h'
        exact absurd h' (by simp)
      · rintro ⟨r, h1, h2, -⟩
        omega
    · simp only [connectBannerAux]
      constructor
      · rintro - ⟨r, h1, h2, -⟩
        omega
      · intro
        trivial
  | succ n ih =>
    intro start h
    have hnf : ∀ i, 0 ≤ i → i < 0 + 10 → lineStep (rounds start i) ≠ some false := by
      intro i h1 h2 hc
      exact h start i (le_refl _) (by omega) (by omega) ((lineStep_eq_some_false _).mp hc)
    have hrest : ∀ r i, start + 1 ≤ r → r < start + 1 + n → i < 10 →
        rounds r i ≠ LineResult.fatal :=
      fun r i h1 h2 h3 => h r i (by omega) (by omega) h3
    simp only [connectBannerAux, listenRound]
    rcases hround : listenAux (rounds start) 10 0 with - | b
    · have hnone := (listenAux_none_spec (rounds start) 10 0 hnf).mp hround
      obtain ⟨ihp, iht⟩ := ih (start + 1) hrest
      constructor
      · rw [ihp]
        constructor
        · rintro ⟨r, h1, h2, hi⟩
          exact ⟨r, by omega, by omega, hi⟩
        · rintro ⟨r, h1, h2, hi⟩
          refine ⟨r, ?_, by omega, hi⟩
          rcases Nat.eq_or_lt_of_le h1 with rfl | h1'
          · obtain ⟨i, hi1, hi2⟩ := hi
            exact absurd ⟨i, by omega, by omega, hi2⟩ hnone
          · omega
      · rw [iht]
        constructor
        · intro h' hc
          obtain ⟨r, h1, h2, hi⟩ := hc
          rcases Nat.eq_or_lt_of_le h1 with rfl | h1'
          · obtain ⟨i, hi1, hi2⟩ := hi
            exact hnone ⟨i, by omega, by omega, hi2⟩
          · exact h' ⟨r, by omega, by omega, hi⟩
        · intro h'
          intro hc
          obtain ⟨r, h1, h2, hi⟩ := hc
          exact h' ⟨r, by omega, by omega, hi⟩
    · cases b with
      | true =>
        have hsome := (listenAux_spec (rounds start) 10 0 hnf).mp hround
        obtain ⟨i, hi1, hi2, hi3⟩ := hsome
        constructor
        · simp only [true_iff]
          exact ⟨start, le_refl _, by omega, i, by omega, hi3⟩
        · constructor
          · intro h'
            exact absurd h' (by simp)
          · intro h'
            exact absurd ⟨start, le_refl _, by omega, i, by omega, hi3⟩ h'
      | false =>
        exact absurd hround (listenAux_ne_some_false (rounds start) 10 0 hnf)

/-- C2 counterexample: a session whose every line read times out proceeds
past the banner stage immediately, although no read ever delivered the
banner line `waiting for download\r\n` — the condition at
src/src/flasher.rs:433 treats a timed-out line read as success. -/
theorem connect_banner_counterexample :
    connectBanner (fun _ _ => LineResult.timeout) = BannerOutcome.proceeded :=
  rfl

/-- C2 amended: in the absence of non-timeout read errors, connect runs at
most ten rounds of reset-then-listen of up to ten line reads each, and
proceeds past the banner stage exactly when some such read either returns
the literal banner line or times out; only when all hundred possible reads
return non-banner lines does it fail with the timeout error. -/
theorem connect_banner_amended (rounds : Nat → Nat → LineResult)
    (hne : ∀ r i, r < 10 → i < 10 → rounds r i ≠ LineResult.fatal) :
    (connectBanner rounds = BannerOutcome.proceeded ↔
      ∃ r, r < 10 ∧ ∃ i, i < 10 ∧
        (rounds r i = LineResult.timeout ∨ rounds r i = LineResult.line bannerBytes)) ∧
    (connectBanner rounds = BannerOutcome.timedOut ↔
      ¬∃ r, r < 10 ∧ ∃ i, i < 10 ∧
        (rounds r i = LineResult.timeout ∨ rounds r i = LineResult.line bannerBytes)) := by
  have h := connectBannerAux_spec rounds 10 0
    (fun r i h1 h2 h3 => hne r i (by omega) h3)
  unfold connectBanner
  have hiff : (∃ r, 0 ≤ r ∧ r < 0 + 10 ∧ ∃ i, i < 10 ∧ lineStep (rounds r i) = some true) ↔
      (∃ r, r < 10 ∧ ∃ i, i < 10 ∧
        (rounds r i = LineResult.timeout ∨ rounds r i = LineResult.line bannerBytes)) := by
    constructor
    · rintro ⟨r, -, h2, i, hi, hstep⟩
      exact ⟨r, by omega, i, hi, (lineStep_eq_some_true _).mp hstep⟩
    · rintro ⟨r, h2, i, hi, hstep⟩
      exact ⟨r, by omega, by omega, i, hi, (lineStep_eq_some_true _).mpr hstep⟩
  rw [hiff] at h
  exact h

/-- Witness for C2 amended: a session whose every read returns the empty
line (neither banner nor timeout) fails the banner stage with the timeout
error. -/
theorem connect_banner_amended_witness :
    connectBanner (fun _ _ => LineResult.line []) = BannerOutcome.timedOut := by
  refine (connect_banner_amended (fun _ _ => LineResult.line []) ?_).2.mpr ?_
  · intro r i h1 h2 h
    simp at h
  · rintro ⟨r, -, i, -, h | h⟩
    · simp at h
    · rw [LineResult.line.injEq] at h
      simp [bannerBytes] at h

/-- The sync retry loop of connect performs at most `fuel` further
attempts beyond the `k` already made. -/
lemma connectSyncAux_count (attempts : Nat → Nat → RespOutcome) :
    ∀ fuel k, (connectSyncAux attempts fuel k).1 ≤ k + fuel := by
  intro fuel
  induction fuel with
  | zero =>
    intro k
    simp [connectSyncAux]
  | succ n ih =>
    intro k
    simp only [connectSyncAux]
    rcases hsr : syncRun (attempts k) with - | - | - <;> dsimp only
    · omega
    · have := ih (k + 1)
      omega
    · omega

/-- If every drained read in range succeeds, the drain loop falls through
to Ok. -/
lemma syncDrainAux_all_ok (reads : Nat → RespOutcome) :
    ∀ fuel start,
      (∀ j, start ≤ j → j < start + fuel → reads j = RespOutcome.ok) →
      syncDrainAux reads fuel start = SyncResult.success := by
  intro fuel
  induction fuel with
  | zero =>
    intro start h
    rfl
  | succ n ih =>
    intro start h
    simp only [syncDrainAux]
    rw [h start (le_refl _) (by omega)]
    exact ih (start + 1) (fun j h1 h2 => h j (by omega) (by omega))

/-- The drain loop reacts to the first non-Ok read in range: a timeout
ends it successfully, a non-timeout error fails it. -/
lemma syncDrainAux_first_non_ok (reads : Nat → RespOutcome) :
    ∀ fuel start k, start ≤ k → k < start + fuel →
      (∀ j, start ≤ j → j < k → reads j = RespOutcome.ok) →
      ((reads k = RespOutcome.timeout →
          syncDrainAux reads fuel start = SyncResult.success) ∧
       (reads k = RespOutcome.fatal →
          syncDrainAux reads fuel start = SyncResult.failed)) := by
  intro fuel
  induction fuel with
  | zero =>
    intro start k h1 h2
    omega
  | succ n ih =>
    intro start k h1 h2 hpre
    rcases Nat.eq_or_lt_of_le h1 with rfl | h1'
    · constructor <;> intro hk <;> simp [syncDrainAux, hk]
    · have hs : reads start = RespOutcome.ok := hpre start (le_refl _) h1'
      have := ih (start + 1) k (by omega) (by omega)
        (fun j hj1 hj2 => hpre j (by omega) hj2)
      simp only [syncDrainAux, hs]
      exact this

/-- C3 counterexample: when every sync attempt times out, connect sends
exactly ten Sync commands and stops — not the hundred the claim
describes (the bound of 100 in the code is the number of responses drained
within one sync call, src/src/flasher.rs:689, while the command retry
bound at src/src/flasher.rs:447 is ten). -/
theorem connect_sync_counterexample :
    (connectSync fun _ _ => RespOutcome.timeout).1 = 10 ∧ (10 : Nat) ≠ 100 :=
  ⟨rfl, by decide⟩

/-- C3 amended: the sync stage of connect sends at most ten Sync commands;
within one sync call, once the Sync command is answered the engine drains
further responses and the first read in the drain window that is not a
further answer decides the call — a timeout is returned as success, any
other error as failure — and if all hundred drain reads are answered the
call also returns success. -/
theorem connect_sync_amended :
    (∀ attempts, (connectSync attempts).1 ≤ 10) ∧
    (∀ (reads : Nat → RespOutcome) (k : Nat),
      reads 0 = RespOutcome.ok → 1 ≤ k → k ≤ 100 →
      (∀ i, 1 ≤ i → i < k → reads i = RespOutcome.ok) →
      ((reads k = RespOutcome.timeout → syncRun reads = SyncResult.success) ∧
       (reads k = RespOutcome.fatal → syncRun reads = SyncResult.failed))) ∧
    (∀ reads : Nat → RespOutcome,
      reads 0 = RespOutcome.ok →
      (∀ i, 1 ≤ i → i ≤ 100 → reads i = RespOutcome.ok) →
      syncRun reads = SyncResult.success) := by
  refine ⟨?_, ?_, ?_⟩
  · intro attempts
    exact connectSyncAux_count attempts 10 0
  · intro reads k h0 hk1 hk2 hpre
    have := syncDrainAux_first_non_ok reads 100 1 k hk1 (by omega) hpre
    simpa [syncRun, h0] using this
  · intro reads h0 hall
    have := syncDrainAux_all_ok reads 100 1 (fun j h1 h2 => hall j h1 (by omega))
    simpa [syncRun, h0] using this

/-- Witness for C3 amended: a sync call whose Sync command is answered and
whose first drain read times out returns success. -/
theorem connect_sync_amended_witness :
    syncRun (fun i => if i = 0 then RespOutcome.ok else RespOutcome.timeout) =
      SyncResult.success :=
  (connect_sync_amended.2.1 (fun i => if i = 0 then RespOutcome.ok else RespOutcome.timeout)
    1 (by simp) (by omega) (by omega) (by intro i h1 h2; omega)).1 (by simp)

/-- A lower-case hex digit of a nibble is an ASCII hex digit. -/
lemma hexDigitLower_isHex (m : Nat) (h : m < 16) :
    isAsciiHexdigit (hexDigitLower m) = true := by
  simp only [isAsciiHexdigit, hexDigitLower, Bool.or_eq_true, Bool.and_eq_true,
    decide_eq_true_eq]
  split <;> omega

/-- Decoding a lower-case hex digit returns the nibble. -/
lemma hexVal_hexDigitLower (m : Nat) (h : m < 16) :
    hexVal (hexDigitLower m) = m := by
  simp only [hexVal, hexDigitLower]
  split_ifs <;> omega

/-- Hex encoding doubles the length. -/
lemma hexEncodeLower_length (d : List Nat) :
    (hexEncodeLower d).length = 2 * d.length := by
  induction d with
  | nil => rfl
  | cons b r ih =>
    simp only [hexEncodeLower, List.length_cons, ih]
    omega

/-- Hex encoding of a byte string consists of ASCII hex digits. -/
lemma hexEncodeLower_all (d : List Nat) (h : ∀ b ∈ d, b < 256) :
    (hexEncodeLower d).all isAsciiHexdigit = true := by
  induction d with
  | nil => rfl
  | cons b r ih =>
    have hb : b < 256 := h b (List.mem_cons_self b r)
    simp only [hexEncodeLower, List.all_cons, Bool.and_eq_true]
    exact ⟨hexDigitLower_isHex _ (by omega), hexDigitLower_isHex _ (by omega),
      ih (fun x hx => h x (List.mem_cons_of_mem _ hx))⟩

/-- Even positions of a hex encoding hold the high nibbles. -/
lemma hexEncodeLower_getD_even :
    ∀ (d : List Nat) (i : Nat), i < d.length →
      (hexEncodeLower d).getD (2 * i) 0 = hexDigitLower (d.getD i 0 / 16) := by
  intro d
  induction d with
  | nil =>
    intro i h
    simp at h
  | cons b r ih =>
    intro i h
    cases i with
    | zero => rfl
    | succ j =>
      have h2 : 2 * (j + 1) = 2 * j + 1 + 1 := by ring
      rw [h2]
      show (hexDigitLower (b / 16) :: hexDigitLower (b % 16) ::
        hexEncodeLower r).getD (2 * j + 1 + 1) 0 = _
      rw [List.getD_cons_succ, List.getD_cons_succ, List.getD_cons_succ]
      exact ih j (by simp only [List.length_cons] at h; omega)

/-- Odd positions of a hex encoding hold the low nibbles. -/
lemma hexEncodeLower_getD_odd :
    ∀ (d : List Nat) (i : Nat), i < d.length →
      (hexEncodeLower d).getD (2 * i + 1) 0 = hexDigitLower (d.getD i 0 % 16) := by
  intro d
  induction d with
  | nil =>
    intro i h
    simp at h
  | cons b r ih =>
    intro i h
    cases i with
    | zero => rfl
    | succ j =>
      have h2 : 2 * (j + 1) + 1 = 2 * j + 1 + 1 + 1 := by ring
      rw [h2]
      show (hexDigitLower (b / 16) :: hexDigitLower (b % 16) ::
        hexEncodeLower r).getD (2 * j + 1 + 1 + 1) 0 = _
      rw [List.getD_cons_succ, List.getD_cons_succ, List.getD_cons_succ]
      exact ih j (by simp only [List.length_cons] at h; omega)

/-- C8: spi_flash_md5 returns a 16-byte digest: in ROM mode it accepts
exactly the 32-hex-digit responses and decoding the hex encoding of any
16-byte digest returns that digest; in stub mode it returns a 16-byte
response unchanged; every other data length, and any non-hex byte in ROM
mode, yields the invalid-response error. -/
theorem spi_flash_md5_spec :
    (∀ d : List Nat, d.length = 16 → (∀ b ∈ d, b < 256) →
      spiFlashMd5Decode true (hexEncodeLower d) = some d) ∧
    (∀ data : List Nat, data.length = 16 → spiFlashMd5Decode false data = some data) ∧
    (∀ data : List Nat, data.length ≠ 16 → spiFlashMd5Decode false data = none) ∧
    (∀ data : List Nat, data.length ≠ 32 → spiFlashMd5Decode true data = none) ∧
    (∀ data : List Nat, ∀ b ∈ data, isAsciiHexdigit b = false →
      spiFlashMd5Decode true data = none) ∧
    (∀ (rom : Bool) (data out : List Nat),
      spiFlashMd5Decode rom data = some out → out.length = 16) := by
  refine ⟨?_, ?_, ?_, ?_, ?_, ?_⟩
  · intro d hlen hmem
    have hL : (hexEncodeLower d).length = 32 := by
      rw [hexEncodeLower_length, hlen]
    have hall : (hexEncodeLower d).all isAsciiHexdigit = true :=
      hexEncodeLower_all d hmem
    simp only [spiFlashMd5Decode, if_true, hL, hall, and_self, if_pos,
      Option.some.injEq]
    apply List.ext_getElem
    · rw [List.length_ofFn, hlen]
    · intro i h1 h2
      rw [List.getElem_ofFn]
      rw [hexEncodeLower_getD_even d i h2, hexEncodeLower_getD_odd d i h2]
      have hb : d.getD i 0 < 256 := by
        have hmemi : d.getD i 0 ∈ d := by
          rw [List.getD_eq_getElem d 0 h2]
          exact List.getElem_mem h2
        exact hmem _ hmemi
      rw [hexVal_hexDigitLower _ (by omega), hexVal_hexDigitLower _ (by omega)]
      rw [List.getD_eq_getElem d 0 h2]
      omega
  · intro data h
    simp [spiFlashMd5Decode, h]
  · intro data h
    simp [spiFlashMd5Decode, h]
  · intro data h
    simp [spiFlashMd5Decode, h]
  · intro data b hb hfalse
    have hna : data.all isAsciiHexdigit = false := by
      rcases hall : data.all isAsciiHexdigit with - | -
      · rfl
      · rw [List.all_eq_true] at hall
        rw [hall b hb] at hfalse
        exact absurd hfalse (by simp)
    simp [spiFlashMd5Decode, hna]
  · intro rom data out h
    cases rom with
    | false =>
      simp only [spiFlashMd5Decode, Bool.false_eq_true, if_false] at h
      split at h
      · rename_i hc
        cases h
        exact hc
      · cases h
    | true =>
      simp only [spiFlashMd5Decode, if_true] at h
      split at h
      · cases h
        simp
      · cases h

/-- Witness for C8: decoding the hex encoding of the all-zero digest
returns it. -/
theorem spi_flash_md5_spec_witness :
    spiFlashMd5Decode true (hexEncodeLower (List.replicate 16 0)) =
      some (List.replicate 16 0) :=
  spi_flash_md5_spec.1 (List.replicate 16 0) (by simp)
    (by intro b hb; rw [List.eq_of_mem_replicate hb]; omega)

end Espflashtool
